import Mathlib

/-!
Verification of the generation-orchestration subsystem of the
`tukangniru` photo-compositing app (source: `src/services/geminiService.ts`
and `src/App.tsx`).

The embedding models:
  * `parseImageDataUrl` — the data-URL parser (the regular expression
    `^data:(image\/\w+);base64,(.*)$` of `geminiService.ts`);
  * `processGeminiResponse` — extraction of the first inline-image part;
  * `callGeminiWithRetry` — the retry loop with exponential backoff;
  * `generateSceneImage` — the primary/fallback orchestration;
  * the bounded-concurrency scheduler of `App.tsx`
    (`handleGenerateClick` / `processScene` / `handleRegenerateScene`).

The external model is a parameter: a function from the request parts and
the (1-based) attempt index inside one retry loop to either an error
message or a response.  JavaScript errors are modelled by their message
strings, `await` suspension by explicit scheduler steps.
-/

namespace Tukangniru

/-! ### Character classes of the JavaScript regular expression

`\w` in an ECMAScript pattern (no `u` flag) is `[A-Za-z0-9_]`; `.`
matches any character except the line terminators LF, CR, U+2028, U+2029.
-/

/-- The ECMAScript `\w` character class. -/
def wordChar (c : Char) : Bool :=
  c.isAlpha || c.isDigit || c == '_'

/-- The ECMAScript line terminators, which `.` does not match. -/
def lineTerm (c : Char) : Bool :=
  c == '\n' || c == '\r' || c.val == 0x2028 || c.val == 0x2029

/-- Drop an expected literal prefix, returning the rest on success. -/
def dropPrefixChars : List Char → List Char → Option (List Char)
  | [], cs => some cs
  | _ :: _, [] => none
  | p :: ps, c :: cs => if c = p then dropPrefixChars ps cs else none

/-- `leadsWith pat s` : `pat` is a prefix of `s` (Boolean). -/
def leadsWith : List Char → List Char → Bool
  | [], _ => true
  | _ :: _, [] => false
  | p :: ps, c :: cs => c == p && leadsWith ps cs

/-- `occursIn pat s` : `pat` occurs contiguously inside `s` (Boolean). -/
def occursIn (pat : List Char) : List Char → Bool
  | [] => leadsWith pat []
  | c :: cs => leadsWith pat (c :: cs) || occursIn pat cs

/-- JavaScript `s.includes(pat)` : substring containment on strings. -/
def includes (s pat : String) : Bool :=
  occursIn pat.data s.data

/-! ### ImageCodec: `parseImageDataUrl` and the data-URL encoder

`geminiService.ts` line 34: `imageDataUrl.match(/^data:(image\/\w+);base64,(.*)$/)`.
The first capture (the MIME type) is `image/` followed by one or more
word characters; the second capture is the payload, which `.` (no `s`
flag) forbids from containing a line terminator.  Greedy matching of
`\w+` is equivalent to taking the maximal word-character run because the
following mandatory character `;` is not a word character.
-/

/-- The regular-expression match of `parseImageDataUrl` on the character
list of the input: on success, the captured MIME type (with its
`image/` prefix) and the captured base64 payload. -/
def parseImageDataUrlChars (cs : List Char) : Option (List Char × List Char) :=
  match dropPrefixChars "data:image/".data cs with
  | none => none
  | some r1 =>
    let w := r1.takeWhile wordChar
    let r2 := r1.dropWhile wordChar
    if w.isEmpty then none
    else
      match dropPrefixChars ";base64,".data r2 with
      | none => none
      | some payload =>
        if payload.any lineTerm then none
        else some ("image/".data ++ w, payload)

/-- `parseImageDataUrl` of `geminiService.ts` (lines 33–40): `none` models
the thrown `InvalidImageFormat` error, `some (mimeType, base64Data)` the
successful parse. -/
def parseImageDataUrl (s : String) : Option (String × String) :=
  (parseImageDataUrlChars s.data).map fun p => (String.mk p.1, String.mk p.2)

/-- The message of the error thrown by `parseImageDataUrl` on a mismatch. -/
def invalidImageFormatMsg : String :=
  "Format URL data gambar tidak valid. Diharapkan 'data:image/...;base64,...'"

/-- The data-URL serialisation used by `processGeminiResponse`
(template literal on line 52 of `geminiService.ts`). -/
def encodeDataUrl (mimeType base64Data : String) : String :=
  "data:" ++ mimeType ++ ";base64," ++ base64Data

/-- A MIME type the parser's first capture group can produce:
`image/` followed by a nonempty run of word characters. -/
def validMimeType (m : String) : Bool :=
  match dropPrefixChars "image/".data m.data with
  | some w => !w.isEmpty && w.all wordChar
  | none => false

/-- A payload the parser's second capture group can produce: free of
ECMAScript line terminators. -/
def validPayload (p : String) : Bool :=
  p.data.all fun c => !lineTerm c

/-- The exact shape accepted by the code's regular expression:
`data:image/<word-chars>;base64,<line-terminator-free payload>`. -/
def imageDataUrlShape (s : String) : Prop :=
  ∃ w p, w ≠ [] ∧ w.all wordChar = true ∧ p.all (fun c => !lineTerm c) = true ∧
    s.data = "data:image/".data ++ w ++ ";base64,".data ++ p

/-- Modelled from the spec: the shape the specification claims the decoder
accepts — `data:<media-type>;base64,<payload>` with a `/`-containing media
type and an arbitrary payload (spec §4.1 / §8).  Stated to compare the
specification's characterisation with the code's. -/
def specDataUrlShape (s : String) : Prop :=
  ∃ mt p : String, '/' ∈ mt.data ∧ s = "data:" ++ mt ++ ";base64," ++ p

/-! ### The external model's response and its interpretation -/

/-- An inline binary datum of a response part (`part.inlineData`). -/
structure InlineData where
  mimeType : String
  base64Data : String
deriving DecidableEq, Repr

/-- One content part of a response; `inlineData` is `none` for text parts. -/
structure ResponsePart where
  inlineData : Option InlineData
deriving DecidableEq, Repr

/-- The external model's response.  `parts` stands for
`response.candidates?.[0]?.content?.parts || []` (an absent chain is the
empty list); `text` is `response.text`, `none` when undefined. -/
structure GenResponse where
  parts : List ResponsePart
  text : Option String
deriving DecidableEq, Repr

/-- The loop of `processGeminiResponse` (lines 49–54): the first part
carrying inline data. -/
def findInlineData : List ResponsePart → Option InlineData
  | [] => none
  | p :: ps =>
      match p.inlineData with
      | some d => some d
      | none => findInlineData ps

/-- The message of the `NoImageInResponse` error (line 58), with the
JavaScript `textResponse || 'Tidak ada respons teks.'` falsy check:
an absent or empty text is replaced by the placeholder. -/
def noImageMessage (text : Option String) : String :=
  "Model AI merespons dengan teks, bukan gambar: \"" ++
    (match text with
     | some t => if t = "" then "Tidak ada respons teks." else t
     | none => "Tidak ada respons teks.") ++ "\""

/-- The marker substring `generateSceneImage` looks for to detect the
content-block signal (line 135). -/
def noImageMarker : String :=
  "Model AI merespons dengan teks, bukan gambar"

/-- `processGeminiResponse` (lines 47–59): the first inline-image part
re-encoded as a data URL, or the `NoImageInResponse` error. -/
def processGeminiResponse (r : GenResponse) : Except String String :=
  match findInlineData r.parts with
  | some d => .ok (encodeDataUrl d.mimeType d.base64Data)
  | none => .error (noImageMessage r.text)

/-! ### `callGeminiWithRetry` (lines 68–97)

The external call is a parameter `gen : Nat → Except String GenResponse`
giving, for each 1-based attempt index of one retry loop, either the
response or the thrown error's message.  The trace records how many calls
were issued and the backoff delays (in milliseconds) between them.
-/

/-- `maxRetries` (line 69). -/
def maxRetries : Nat := 3

/-- `initialDelay` (line 70), in milliseconds. -/
def initialDelay : Nat := 1000

/-- Line 84: an error is retriable exactly when its message contains
`"code":500` or `INTERNAL`. -/
def isInternalError (msg : String) : Bool :=
  includes msg "\"code\":500" || includes msg "INTERNAL"

/-- The message of the (unreachable) final throw on line 96. -/
def exhaustedMsg : String :=
  "Panggilan Gemini API gagal setelah semua percobaan ulang."

instance {α β : Type} [DecidableEq α] [DecidableEq β] : DecidableEq (Except α β) := fun a b =>
  match a, b with
  | .ok x, .ok y => if h : x = y then isTrue (by rw [h]) else isFalse (by simp [h])
  | .error x, .error y => if h : x = y then isTrue (by rw [h]) else isFalse (by simp [h])
  | .ok _, .error _ => isFalse (by simp)
  | .error _, .ok _ => isFalse (by simp)

/-- Observable trace of one retry loop: calls issued, delays waited
between consecutive calls, and the final outcome. -/
structure CallTrace where
  calls : Nat
  delays : List Nat
  result : Except String GenResponse
deriving DecidableEq, Repr

/-- The `for attempt` loop of `callGeminiWithRetry`, fuelled by the number
of remaining iterations; `attempt` is the current 1-based index. -/
def callGeminiAux (gen : Nat → Except String GenResponse) : Nat → Nat → CallTrace
  | _, 0 => ⟨0, [], .error exhaustedMsg⟩
  | attempt, fuel + 1 =>
      match gen attempt with
      | .ok r => ⟨1, [], .ok r⟩
      | .error msg =>
          if isInternalError msg && decide (attempt < maxRetries) then
            let delay := initialDelay * 2 ^ (attempt - 1)
            let rest := callGeminiAux gen (attempt + 1) fuel
            ⟨rest.calls + 1, delay :: rest.delays, rest.result⟩
          else ⟨1, [], .error msg⟩

/-- `callGeminiWithRetry` (lines 68–97) over an abstract external call. -/
def callGeminiWithRetry (gen : Nat → Except String GenResponse) : CallTrace :=
  callGeminiAux gen 1 maxRetries

/-! ### Prompts and the per-scene orchestration `generateSceneImage` -/

/-- The primary prompt template of `generateSceneImage` (lines 120–125). -/
def primaryPrompt (scene : String) : String :=
  "FOTO REALISTIS: Gabungkan Gambar 1 (orang) dan Gambar 2 (pakaian) ke dalam latar \"" ++
  scene ++
  "\".\nPrioritas Utama:\n1.  **Wajah & Identitas**: Salin wajah dari Gambar 1 secara PERSIS. Jangan diubah.\n2.  **Pakaian**: Terapkan pakaian dari Gambar 2 ke orang tersebut. Perhatikan detail seperti warna, pola, dan potongan.\n3.  **Integrasi**: Pastikan pencahayaan dan bayangan pada orang dan pakaian menyatu dengan latar belakang secara alami.\nHasil akhir harus berupa satu gambar saja, tanpa teks."

/-- `getFallbackPrompt` (lines 24–26). -/
def getFallbackPrompt (scene : String) : String :=
  "FOTO REALISTIS: Orang dari Gambar 1, memakai pakaian dari Gambar 2, di lokasi \"" ++
  scene ++ "\". Jaga wajah tetap sama. Buat terlihat nyata."

/-- One part of the request payload sent to the external model. -/
inductive RequestPart where
  | image (mimeType base64Data : String)
  | text (t : String)
deriving DecidableEq, Repr

/-- The external model as a capability: from the request's parts and the
1-based attempt index of the current retry loop to the response or the
thrown error's message. -/
def ExternalModel : Type :=
  List RequestPart → Nat → Except String GenResponse

/-- The request parts of the primary attempt for a scene: the two image
parts then the primary text part (lines 112–118, 130–131). -/
def primaryRequest (pm pd cm cd scene : String) : List RequestPart :=
  [.image pm pd, .image cm cd, .text (primaryPrompt scene)]

/-- The request parts of the fallback attempt (lines 142–145). -/
def fallbackRequest (pm pd cm cd scene : String) : List RequestPart :=
  [.image pm pd, .image cm cd, .text (getFallbackPrompt scene)]

/-- One attempt-sequence: `callGeminiWithRetry` followed by
`processGeminiResponse` on a successful response (both inside the same
`try` of `generateSceneImage`).  Returns the retry trace and the outcome
the surrounding `catch` sees. -/
def runAttempt (gen : Nat → Except String GenResponse) :
    CallTrace × Except String String :=
  let t := callGeminiWithRetry gen
  (t, match t.result with
      | .ok r => processGeminiResponse r
      | .error m => .error m)

/-- The final error message when both prompts failed (line 150). -/
def fallbackFailedMsg (finalErrorMessage : String) : String :=
  "Model AI gagal dengan prompt asli dan cadangan. Kesalahan terakhir: " ++
  finalErrorMessage

/-- The final error message of the non-fallback branch (line 155). -/
def genericFailedMsg (errorMessage : String) : String :=
  "Model AI gagal membuat gambar. Detail: " ++ errorMessage

/-- Observable trace of one `generateSceneImage` invocation: total
external calls, backoff delays of the primary and of the fallback retry
loop, whether the fallback prompt was attempted, and the outcome. -/
structure SceneTrace where
  calls : Nat
  primaryDelays : List Nat
  fallbackDelays : List Nat
  fallbackAttempted : Bool
  result : Except String String
deriving DecidableEq, Repr

/-- The `try`/`catch` structure of `generateSceneImage` after the images
parsed (lines 127–157): run the primary attempt-sequence; on an error
whose message contains `noImageMarker` (line 135) run the fallback
attempt-sequence, composing `fallbackFailedMsg` when it fails too; wrap
any other error with `genericFailedMsg` without a fallback. -/
def orchestrate (primGen fbGen : Nat → Except String GenResponse) : SceneTrace :=
  match runAttempt primGen with
  | (t1, .ok url) => ⟨t1.calls, t1.delays, [], false, .ok url⟩
  | (t1, .error msg) =>
    if includes msg noImageMarker then
      match runAttempt fbGen with
      | (t2, .ok url) =>
          ⟨t1.calls + t2.calls, t1.delays, t2.delays, true, .ok url⟩
      | (t2, .error m2) =>
          ⟨t1.calls + t2.calls, t1.delays, t2.delays, true,
            .error (fallbackFailedMsg m2)⟩
    else ⟨t1.calls, t1.delays, [], false, .error (genericFailedMsg msg)⟩

/-- `generateSceneImage` (lines 108–158): parse both source images (a
parse failure propagates with 0 external calls), then orchestrate the
primary and fallback attempt-sequences. -/
def generateSceneImage (model : ExternalModel)
    (personImageDataUrl clothingImageDataUrl scene : String) : SceneTrace :=
  match parseImageDataUrl personImageDataUrl with
  | none => ⟨0, [], [], false, .error invalidImageFormatMsg⟩
  | some (pm, pd) =>
    match parseImageDataUrl clothingImageDataUrl with
    | none => ⟨0, [], [], false, .error invalidImageFormatMsg⟩
    | some (cm, cd) =>
      orchestrate (model (primaryRequest pm pd cm cd scene))
        (model (fallbackRequest pm pd cm cd scene))

/-! ### The concurrency scheduler of `App.tsx`

`handleGenerateClick` (lines 126–196) publishes a `pending` status for
every scene, then spawns `concurrencyLimit = 2` workers over a shared
queue; each worker repeatedly shifts one scene and awaits
`processScene`, which awaits `generateSceneImage` and publishes the
terminal status (`done` on success, `error` on a caught exception).

The single-threaded event loop is modelled as explicit interleaving: a
schedule is a list of worker indices (`Bool`, as the code has exactly two
workers); at each step the chosen worker either takes the queue's head
(the synchronous `shift`), counts down its in-flight call's latency, or
publishes its finished scene's status.  The per-scene outcome is
deterministic (`generateSceneImage` applied to that scene), latency is an
arbitrary function of the scene.  `started` is ghost state recording each
scene at the moment a worker shifts it off the queue.
-/

/-- The per-scene status of the `generatedImages` record (`ImageStatus`
plus its payload, `App.tsx` lines 67–72). -/
inductive GStatus where
  | pending
  | done (url : String)
  | error (msg : String)
deriving DecidableEq, Repr

/-- `done` and `error` are the terminal statuses. -/
def GStatus.isTerminal : GStatus → Bool
  | .pending => false
  | .done _ => true
  | .error _ => true

/-- The status record, keyed by scene text. -/
abbrev StatusMap : Type := List (String × GStatus)

/-- The React update `{...prev, [scene]: v}`: replace the key's binding,
or add it. -/
def setStatus : StatusMap → String → GStatus → StatusMap
  | [], k, v => [(k, v)]
  | (k', v') :: rest, k, v =>
      if k' = k then (k, v) :: rest else (k', v') :: setStatus rest k v

/-- Lookup `generatedImages[scene]` (`none` when the key is absent). -/
def getStatus : StatusMap → String → Option GStatus
  | [], _ => none
  | (k', v') :: rest, k => if k' = k then some v' else getStatus rest k

/-- The terminal status `processScene` publishes for an outcome of
`generateSceneImage` (`App.tsx` lines 166–181): `done` with the URL, or
`error` with the caught message. -/
def resultStatus : Except String String → GStatus
  | .ok url => .done url
  | .error msg => .error msg

/-- Publish a scene's terminal status from its generation outcome. -/
def publish (gen : String → Except String String) (m : StatusMap) (scene : String) :
    StatusMap :=
  setStatus m scene (resultStatus (gen scene))

/-- The outcome of `generateSceneImage` for one scene, as `processScene`
awaits it: fixed person and clothing images, the scene varying. -/
def sceneResult (model : ExternalModel) (personImage clothingImage : String)
    (scene : String) : Except String String :=
  (generateSceneImage model personImage clothingImage scene).result

/-- One worker of the pool: idle (between scenes or done), or awaiting
the in-flight call for a scene, with the remaining latency steps. -/
inductive WorkerState where
  | idle
  | running (scene : String) (remaining : Nat)
deriving DecidableEq, Repr

/-- Whether a worker has an in-flight call. -/
def WorkerState.isRunning : WorkerState → Bool
  | .idle => false
  | .running _ _ => true

/-- `concurrencyLimit` (`App.tsx` line 163). -/
def concurrencyLimit : Nat := 2

/-- The scheduler's state: the shared scene queue, the two workers, the
status record, and the ghost list of scenes already taken off the queue. -/
structure SchedState where
  queue : List String
  w0 : WorkerState
  w1 : WorkerState
  status : StatusMap
  started : List String
deriving Repr

/-- The state right after `handleGenerateClick` published `pending` for
every scene and spawned the (still idle) workers (lines 157–164, 183). -/
def initSched (scenes : List String) : SchedState :=
  { queue := scenes
    w0 := .idle
    w1 := .idle
    status := scenes.foldl (fun m sc => setStatus m sc .pending) []
    started := [] }

/-- The scene a worker is processing, if any. -/
def workerScenes : WorkerState → List String
  | .idle => []
  | .running sc _ => [sc]

/-- The scenes with an in-flight call. -/
def runningScenes (s : SchedState) : List String :=
  workerScenes s.w0 ++ workerScenes s.w1

/-- The number of simultaneously in-flight external calls. -/
def inFlight (s : SchedState) : Nat :=
  (if s.w0.isRunning then 1 else 0) + (if s.w1.isRunning then 1 else 0)

/-- Advance worker `i` by one event-loop step: an idle worker shifts the
queue's head (or stays done when the queue is empty); a worker whose call
still has latency counts it down; a worker whose call resolved publishes
the terminal status and becomes idle for its next loop iteration. -/
def stepWorker (gen : String → Except String String) (lat : String → Nat)
    (s : SchedState) (i : Bool) : SchedState :=
  match (if i then s.w1 else s.w0) with
  | .idle =>
      match s.queue with
      | [] => s
      | sc :: rest =>
          let w' := WorkerState.running sc (lat sc)
          if i then { s with queue := rest, w1 := w', started := sc :: s.started }
          else { s with queue := rest, w0 := w', started := sc :: s.started }
  | .running sc 0 =>
      let st' := publish gen s.status sc
      if i then { s with w1 := .idle, status := st' }
      else { s with w0 := .idle, status := st' }
  | .running sc (n + 1) =>
      let w' := WorkerState.running sc n
      if i then { s with w1 := w' } else { s with w0 := w' }

/-- Run the scheduler along a schedule (the event loop's interleaving). -/
def runSched (gen : String → Except String String) (lat : String → Nat)
    (s : SchedState) : List Bool → SchedState
  | [] => s
  | i :: rest => runSched gen lat (stepWorker gen lat s i) rest

/-- The run is complete: the queue is drained and both workers' loops
have exited (`await Promise.all(workers)` resolved). -/
def completed (s : SchedState) : Bool :=
  s.queue.isEmpty && !s.w0.isRunning && !s.w1.isRunning

/-- `handleRegenerateScene` (`App.tsx` lines 198–226): a no-op when the
scene's status is `pending`; otherwise set `pending`, run one
`generateSceneImage` attempt-sequence, and publish its terminal result.
The second component counts the `generateSceneImage` invocations. -/
def regenerate (gen : String → Except String String) (m : StatusMap)
    (scene : String) : StatusMap × Nat :=
  match getStatus m scene with
  | some .pending => (m, 0)
  | _ =>
      let m1 := setStatus m scene .pending
      (publish gen m1 scene, 1)

/-! ### The scheduler's invariant and concrete instances used as witnesses -/

/-- Every scene of the run is queued, in flight, or already terminal. -/
def accounted (scenes : List String) (s : SchedState) : Prop :=
  ∀ sc ∈ scenes, sc ∈ s.queue ∨ sc ∈ runningScenes s ∨
    ∃ st, getStatus s.status sc = some st ∧ st.isTerminal = true

/-- The inductive invariant of the bulk run: a scene is shifted off the
queue at most once (so processed by at most one worker), and every scene
of the run is accounted for. -/
structure SchedInv (scenes : List String) (s : SchedState) : Prop where
  startedNodup : s.started.Nodup
  queueNodup : s.queue.Nodup
  queueFresh : ∀ sc ∈ s.queue, sc ∉ s.started
  account : accounted scenes s

/-- A response carrying one inline image part. -/
def imageResponseDemo : GenResponse :=
  ⟨[⟨some ⟨"image/png", "XYZA"⟩⟩], none⟩

/-- A model failing with an internal-error marker on the first two
attempts of every retry loop and succeeding on the third. -/
def twoInternalModel : ExternalModel := fun _ attempt =>
  if attempt = 1 then .error "rpc failed: INTERNAL"
  else if attempt = 2 then .error "rpc failed again: INTERNAL"
  else .ok imageResponseDemo

/-- An external failure message that happens to contain the
content-block marker while carrying no internal-error marker. -/
def spuriousMsg : String :=
  "Kuota habis. Pesan pihak ketiga berbunyi: Model AI merespons dengan teks, bukan gambar."

/-- A model whose every call fails with `spuriousMsg`. -/
def alwaysSpuriousModel : ExternalModel := fun _ _ => .error spuriousMsg

/-- Whether a request carries the given text part. -/
def hasText (t : String) (req : List RequestPart) : Bool :=
  req.any fun part =>
    match part with
    | .text u => u == t
    | .image _ _ => false

/-- A model answering the primary prompt of scene `"pantai"` with the
text-only response `"zzqq"` and every other request with the text-only
response `"wwyy"`. -/
def twoTextsModel : ExternalModel := fun req _ =>
  if hasText (primaryPrompt "pantai") req then .ok ⟨[], some "zzqq"⟩
  else .ok ⟨[], some "wwyy"⟩

/-- A model that always succeeds with an image on the first call. -/
def okModelDemo : ExternalModel := fun _ _ => .ok imageResponseDemo

/-- A model failing once with a plain quota error: no server-error
marker, no content-block marker. -/
def quotaModel : ExternalModel := fun _ _ => .error "Kuota habis."

/-- The demo person image of the spec's end-to-end scenario. -/
def personUrlDemo : String := "data:image/png;base64,AAAA"

/-- The demo reference image of the spec's end-to-end scenario. -/
def clothingUrlDemo : String := "data:image/jpeg;base64,BBBB"

/-- Six scenes for the bulk-run witness. -/
def scenesDemo : List String :=
  ["di pantai saat senja", "di taman kota", "di kafe", "di hutan pinus",
   "di stasiun", "di kastil"]

/-- A round-robin schedule long enough to drain the six-scene run at
latency 1. -/
def schedDemo : List Bool :=
  [false, true, false, true, false, true, false, true, false, true,
   false, true, false, true, false, true, false, true, false, true,
   false, true, false, true, false, true, false, true, false, true]

/-- A status record with one finished and one in-flight scene, for the
re-request witness. -/
def statusMapDemo : StatusMap :=
  [("di kafe", .done "data:image/png;base64,XYZA"), ("di taman kota", .pending)]

/-! ### Utility lemmas -/

theorem dropPrefixChars_eq_some {p : List Char} :
    ∀ {cs r : List Char}, dropPrefixChars p cs = some r ↔ cs = p ++ r := by
  induction p with
  | nil => intro cs r; simp [dropPrefixChars]
  | cons a p ih =>
    intro cs r
    cases cs with
    | nil => simp [dropPrefixChars]
    | cons c cs =>
      by_cases h : c = a
      · subst h; simp [dropPrefixChars, ih]
      · simp [dropPrefixChars, h, Ne.symm h]

theorem dropPrefixChars_append (p r : List Char) :
    dropPrefixChars p (p ++ r) = some r :=
  dropPrefixChars_eq_some.mpr rfl

theorem leadsWith_refl : ∀ l : List Char, leadsWith l l = true := by
  intro l
  induction l with
  | nil => rfl
  | cons c cs ih => simp [leadsWith, ih]

theorem leadsWith_append {pat : List Char} :
    ∀ {s : List Char} (t : List Char), leadsWith pat s = true →
      leadsWith pat (s ++ t) = true := by
  induction pat with
  | nil => intro s t _; rfl
  | cons p ps ih =>
    intro s t h
    cases s with
    | nil => simp [leadsWith] at h
    | cons c cs =>
      simp only [leadsWith, Bool.and_eq_true] at h
      simp [leadsWith, h.1, ih t h.2]

theorem occursIn_nil_pat : ∀ l : List Char, occursIn [] l = true := by
  intro l
  cases l with
  | nil => rfl
  | cons c cs => simp [occursIn, leadsWith]

theorem occursIn_append_left {pat : List Char} :
    ∀ {s : List Char} (t : List Char), occursIn pat s = true →
      occursIn pat (s ++ t) = true := by
  intro s
  induction s with
  | nil =>
    intro t h
    cases pat with
    | nil => exact occursIn_nil_pat t
    | cons p ps => simp [occursIn, leadsWith] at h
  | cons c cs ih =>
    intro t h
    simp only [occursIn, Bool.or_eq_true] at h
    rcases h with h | h
    · have := leadsWith_append (s := c :: cs) t h
      simp only [List.cons_append] at this ⊢
      simp [occursIn, this]
    · simp only [List.cons_append]
      simp [occursIn, ih t h]

theorem occursIn_append_self (pre pat : List Char) :
    occursIn pat (pre ++ pat) = true := by
  induction pre with
  | nil =>
    cases pat with
    | nil => rfl
    | cons p ps => simp [occursIn, leadsWith_refl]
  | cons c cs ih => simp [occursIn, ih]

/-- A string always contains its own suffix. -/
theorem includes_append_self (pre m : String) : includes (pre ++ m) m = true := by
  simp only [includes, String.data_append]
  exact occursIn_append_self pre.data m.data

/-- Substring containment extends to a longer string on the right. -/
theorem includes_append_of_includes {pre : String} (m : String) (pat : String)
    (h : includes pre pat = true) : includes (pre ++ m) pat = true := by
  simp only [includes, String.data_append] at h ⊢
  exact occursIn_append_left m.data h

theorem takeWhile_all (f : Char → Bool) :
    ∀ l : List Char, (l.takeWhile f).all f = true := by
  intro l
  induction l with
  | nil => rfl
  | cons c cs ih =>
    by_cases h : f c
    · simp [List.takeWhile_cons, h, ih]
    · simp [List.takeWhile_cons, h]

theorem takeWhile_dropWhile_word {f : Char → Bool} {d : Char} (hd : f d = false) :
    ∀ {w : List Char}, w.all f = true → ∀ tail : List Char,
      ((w ++ d :: tail).takeWhile f = w ∧ (w ++ d :: tail).dropWhile f = d :: tail) := by
  intro w
  induction w with
  | nil => intro _ tail; simp [List.takeWhile_cons, List.dropWhile_cons, hd]
  | cons c cs ih =>
    intro hall tail
    simp only [List.all_cons, Bool.and_eq_true] at hall
    have := ih hall.2 tail
    simp [List.takeWhile_cons, List.dropWhile_cons, hall.1, this.1, this.2]

theorem all_not_any {f : Char → Bool} :
    ∀ {l : List Char}, l.all (fun c => !f c) = true ↔ l.any f = false := by
  intro l
  induction l with
  | nil => simp
  | cons c cs ih => cases h : f c <;> simp [h, ih]

/-! ### Characterisation of `parseImageDataUrl` -/

theorem semicolon_not_wordChar : wordChar ';' = false := by decide

theorem base64_marker_cons :
    ";base64,".data = ';' :: "base64,".data := by decide

theorem parseImageDataUrlChars_some_iff (cs : List Char) :
    (parseImageDataUrlChars cs).isSome = true ↔
      ∃ w p, w ≠ [] ∧ w.all wordChar = true ∧ p.all (fun c => !lineTerm c) = true ∧
        cs = "data:image/".data ++ w ++ ";base64,".data ++ p := by
  constructor
  · intro hsome
    cases h1 : dropPrefixChars "data:image/".data cs with
    | none => simp [parseImageDataUrlChars, h1] at hsome
    | some r1 =>
      have hcs : cs = "data:image/".data ++ r1 := dropPrefixChars_eq_some.mp h1
      cases hW : (r1.takeWhile wordChar).isEmpty with
      | true => simp [parseImageDataUrlChars, h1, hW] at hsome
      | false =>
        cases h2 : dropPrefixChars ";base64,".data (r1.dropWhile wordChar) with
        | none => simp [parseImageDataUrlChars, h1, hW, h2] at hsome
        | some payload =>
          cases h3 : payload.any lineTerm with
          | true => simp [parseImageDataUrlChars, h1, hW, h2, h3] at hsome
          | false =>
            refine ⟨r1.takeWhile wordChar, payload, ?_, takeWhile_all wordChar r1,
              all_not_any.mpr h3, ?_⟩
            · intro hnil
              rw [hnil] at hW
              simp at hW
            · have hdw : r1.dropWhile wordChar = ";base64,".data ++ payload :=
                dropPrefixChars_eq_some.mp h2
              have hr1 : r1 = r1.takeWhile wordChar ++ r1.dropWhile wordChar :=
                (List.takeWhile_append_dropWhile (p := wordChar) (l := r1)).symm
              rw [hcs]
              conv_lhs => rw [hr1, hdw]
              simp [List.append_assoc]
  · rintro ⟨w, p, hw, hwall, hp, hcs⟩
    have hassoc : "data:image/".data ++ w ++ ";base64,".data ++ p =
        "data:image/".data ++ (w ++ (";base64,".data ++ p)) := by
      simp [List.append_assoc]
    rw [hcs, hassoc]
    have hsplit := takeWhile_dropWhile_word semicolon_not_wordChar hwall
      ("base64,".data ++ p)
    have hmid : w ++ (";base64,".data ++ p) = w ++ ';' :: ("base64,".data ++ p) := by
      rw [base64_marker_cons]
      simp
    have hW : ((w ++ (";base64,".data ++ p)).takeWhile wordChar).isEmpty = false := by
      rw [hmid, (hsplit).1]
      cases w with
      | nil => exact absurd rfl hw
      | cons c cs => rfl
    have hDW : (w ++ (";base64,".data ++ p)).dropWhile wordChar =
        ";base64,".data ++ p := by
      rw [hmid, (hsplit).2, base64_marker_cons]
      simp
    simp only [parseImageDataUrlChars, dropPrefixChars_append]
    rw [hW, hDW, dropPrefixChars_append]
    simp [all_not_any.mp hp]

theorem parseImageDataUrlChars_canonical (w p : List Char) (hw : w ≠ [])
    (hwall : w.all wordChar = true) (hp : p.all (fun c => !lineTerm c) = true) :
    parseImageDataUrlChars ("data:image/".data ++ (w ++ (";base64,".data ++ p)))
      = some ("image/".data ++ w, p) := by
  have hmid : w ++ (";base64,".data ++ p) = w ++ ';' :: ("base64,".data ++ p) := by
    rw [base64_marker_cons]
    simp
  have hsplit := takeWhile_dropWhile_word semicolon_not_wordChar hwall
    ("base64,".data ++ p)
  have hTW : (w ++ (";base64,".data ++ p)).takeWhile wordChar = w := by
    rw [hmid]
    exact hsplit.1
  have hW : ((w ++ (";base64,".data ++ p)).takeWhile wordChar).isEmpty = false := by
    rw [hTW]
    cases w with
    | nil => exact absurd rfl hw
    | cons c cs => rfl
  have hDW : (w ++ (";base64,".data ++ p)).dropWhile wordChar =
      ";base64,".data ++ p := by
    rw [hmid, hsplit.2, base64_marker_cons]
    simp
  simp only [parseImageDataUrlChars, dropPrefixChars_append]
  rw [hW, hDW, dropPrefixChars_append, hTW]
  simp [all_not_any.mp hp]

theorem decode_encode_chars (m p : String) (hm : validMimeType m = true)
    (hp : validPayload p = true) :
    parseImageDataUrl (encodeDataUrl m p) = some (m, p) := by
  unfold validMimeType at hm
  cases h : dropPrefixChars "image/".data m.data with
  | none =>
    rw [h] at hm
    simp at hm
  | some w =>
    rw [h] at hm
    simp only [Bool.and_eq_true, Bool.not_eq_true'] at hm
    have hmdata : m.data = "image/".data ++ w := dropPrefixChars_eq_some.mp h
    have hw : w ≠ [] := by
      intro hnil
      rw [hnil] at hm
      simp at hm
    have hpl : p.data.all (fun c => !lineTerm c) = true := hp
    have hdata : (encodeDataUrl m p).data =
        "data:image/".data ++ (w ++ (";base64,".data ++ p.data)) := by
      have hlit : "data:image/".data = "data:".data ++ "image/".data := by decide
      simp only [encodeDataUrl, String.data_append, hmdata, hlit, List.append_assoc]
      simp
    unfold parseImageDataUrl
    rw [hdata, parseImageDataUrlChars_canonical w p.data hw hm.2 hpl]
    simp only [Option.map_some']
    rw [← hmdata]

end Tukangniru

namespace Tukangniru

theorem parse_succeeds_iff_shape (s : String) :
    (parseImageDataUrl s).isSome = true ↔ imageDataUrlShape s := by
  unfold parseImageDataUrl imageDataUrlShape
  rw [show ((parseImageDataUrlChars s.data).map
      (fun p => (String.mk p.1, String.mk p.2))).isSome
      = (parseImageDataUrlChars s.data).isSome from by
    cases parseImageDataUrlChars s.data <;> rfl]
  exact parseImageDataUrlChars_some_iff s.data

/-! ### Lemmas about the retry loop and the orchestrator -/

theorem callGeminiAux_calls_le (gen : Nat → Except String GenResponse) :
    ∀ (fuel attempt : Nat), (callGeminiAux gen attempt fuel).calls ≤ fuel := by
  intro fuel
  induction fuel with
  | zero => intro attempt; simp [callGeminiAux]
  | succ f ih =>
    intro attempt
    simp only [callGeminiAux]
    cases gen attempt with
    | ok r => simp
    | error msg =>
      by_cases h : (isInternalError msg && decide (attempt < maxRetries)) = true
      · simp only [h, if_true]
        have := ih (attempt + 1)
        omega
      · simp only [h]
        simp

theorem callGeminiAux_calls_pos (gen : Nat → Except String GenResponse)
    (fuel attempt : Nat) : 1 ≤ (callGeminiAux gen attempt (fuel + 1)).calls := by
  simp only [callGeminiAux]
  cases gen attempt with
  | ok r => simp
  | error msg =>
    by_cases h : (isInternalError msg && decide (attempt < maxRetries)) = true
    · simp only [h, if_true]
      omega
    · simp only [h]
      simp

theorem callGeminiWithRetry_calls_le (gen : Nat → Except String GenResponse) :
    (callGeminiWithRetry gen).calls ≤ 3 :=
  callGeminiAux_calls_le gen maxRetries 1

/-- Two retriable failures then a success: 3 calls with the exponential
backoff delays 1000ms then 2000ms, ending in the third response. -/
theorem retry_two_internal_then_ok (gen : Nat → Except String GenResponse)
    (m1 m2 : String) (r : GenResponse)
    (h1 : gen 1 = .error m1) (h2 : gen 2 = .error m2) (h3 : gen 3 = .ok r)
    (hi1 : isInternalError m1 = true) (hi2 : isInternalError m2 = true) :
    callGeminiWithRetry gen = ⟨3, [1000, 2000], .ok r⟩ := by
  simp [callGeminiWithRetry, callGeminiAux, h1, h2, h3, hi1, hi2, maxRetries,
    initialDelay]

/-- A first failure that is not retriable is propagated after 1 call. -/
theorem retry_nonretriable (gen : Nat → Except String GenResponse) (m : String)
    (h : gen 1 = .error m) (hm : isInternalError m = false) :
    callGeminiWithRetry gen = ⟨1, [], .error m⟩ := by
  simp [callGeminiWithRetry, callGeminiAux, h, hm]

/-- A second call is issued iff the first failure's message carries an
internal-error marker. -/
theorem retry_retries_iff (gen : Nat → Except String GenResponse) (m : String)
    (h : gen 1 = .error m) :
    2 ≤ (callGeminiWithRetry gen).calls ↔ isInternalError m = true := by
  cases hi : isInternalError m with
  | false =>
    rw [retry_nonretriable gen m h hi]
    simp
  | true =>
    simp only [eq_self_iff_true, iff_true]
    have hstep : callGeminiWithRetry gen =
        ⟨(callGeminiAux gen 2 2).calls + 1,
          initialDelay * 2 ^ 0 :: (callGeminiAux gen 2 2).delays,
          (callGeminiAux gen 2 2).result⟩ := by
      rw [callGeminiWithRetry, show maxRetries = 2 + 1 from rfl]
      conv_lhs => rw [callGeminiAux]
      rw [h]
      simp [hi, maxRetries]
    rw [hstep]
    have hpos : 1 ≤ (callGeminiAux gen 2 2).calls := callGeminiAux_calls_pos gen 1 2
    simp only []
    omega

/-- The fallback prompt is attempted iff the primary attempt-sequence's
outcome is an error whose message contains the `noImageMarker` substring. -/
theorem fallbackAttempted_iff (model : ExternalModel)
    (p c scene pm pd cm cd : String)
    (hp : parseImageDataUrl p = some (pm, pd))
    (hc : parseImageDataUrl c = some (cm, cd)) :
    (generateSceneImage model p c scene).fallbackAttempted = true ↔
      ∃ m, (runAttempt (model (primaryRequest pm pd cm cd scene))).2 = .error m ∧
        includes m noImageMarker = true := by
  simp only [generateSceneImage, hp, hc]
  rcases hprim : runAttempt (model (primaryRequest pm pd cm cd scene)) with ⟨t1, res⟩
  cases res with
  | ok url => simp [orchestrate, hprim]
  | error msg =>
    cases hmark : includes msg noImageMarker with
    | false => simp [orchestrate, hprim, hmark]
    | true =>
      rcases hfb : runAttempt (model (fallbackRequest pm pd cm cd scene)) with ⟨t2, res2⟩
      cases res2 with
      | ok url =>
        simp [orchestrate, hprim, hmark, hfb]
      | error m2 =>
        simp [orchestrate, hprim, hmark, hfb]

/-- Each attempt-sequence issues at most 3 calls, so a scene issues at
most 6 external calls. -/
theorem generateSceneImage_calls_le (model : ExternalModel)
    (p c scene : String) :
    (generateSceneImage model p c scene).calls ≤ 6 := by
  simp only [generateSceneImage]
  cases parseImageDataUrl p with
  | none => simp
  | some pr =>
    rcases pr with ⟨pm, pd⟩
    cases parseImageDataUrl c with
    | none => simp
    | some cr =>
      rcases cr with ⟨cm, cd⟩
      simp only [orchestrate]
      rcases hprim : runAttempt (model (primaryRequest pm pd cm cd scene)) with ⟨t1, res⟩
      have ht1 : t1.calls ≤ 3 := by
        have heq : t1 = callGeminiWithRetry (model (primaryRequest pm pd cm cd scene)) := by
          have := congrArg Prod.fst hprim
          simpa [runAttempt] using this.symm
        rw [heq]
        exact callGeminiWithRetry_calls_le _
      cases res with
      | ok url => simp; omega
      | error msg =>
        cases hmark : includes msg noImageMarker with
        | false => simp only [hmark]; simp; omega
        | true =>
          rcases hfb : runAttempt (model (fallbackRequest pm pd cm cd scene)) with ⟨t2, res2⟩
          have ht2 : t2.calls ≤ 3 := by
            have heq : t2 = callGeminiWithRetry (model (fallbackRequest pm pd cm cd scene)) := by
              have := congrArg Prod.fst hfb
              simpa [runAttempt] using this.symm
            rw [heq]
            exact callGeminiWithRetry_calls_le _
          cases res2 with
          | ok url => simp only [hmark]; simp; omega
          | error m2 => simp only [hmark]; simp; omega

/-! ### Lemmas about the status map and the scheduler -/

theorem getStatus_setStatus (k : String) (v : GStatus) :
    ∀ (m : StatusMap) (q : String),
      getStatus (setStatus m k v) q = if q = k then some v else getStatus m q := by
  intro m
  induction m with
  | nil =>
    intro q
    by_cases h : q = k
    · subst h
      simp [setStatus, getStatus]
    · have h1 : ¬k = q := fun hh => h hh.symm
      simp [setStatus, getStatus, h, h1]
  | cons a rest ih =>
    intro q
    rcases a with ⟨k', v'⟩
    by_cases hk : k' = k
    · subst hk
      by_cases hq : q = k'
      · subst hq
        simp [setStatus, getStatus]
      · have h1 : ¬k' = q := fun hh => hq hh.symm
        simp [setStatus, getStatus, hq, h1]
    · by_cases hq : q = k
      · subst hq
        simp [setStatus, getStatus, hk, ih]
      · by_cases hq2 : k' = q
        · subst hq2
          simp [setStatus, getStatus, hk, hq]
        · simp [setStatus, getStatus, hk, hq, hq2, ih]

theorem getStatus_publish_self (gen : String → Except String String)
    (m : StatusMap) (sc : String) :
    getStatus (publish gen m sc) sc = some (resultStatus (gen sc)) := by
  simp [publish, getStatus_setStatus]

theorem resultStatus_isTerminal (r : Except String String) :
    (resultStatus r).isTerminal = true := by
  cases r <;> rfl

theorem getStatus_foldl_pending_not_mem :
    ∀ (l : List String) (m : StatusMap) (sc : String), sc ∉ l →
      getStatus (l.foldl (fun acc x => setStatus acc x .pending) m) sc =
        getStatus m sc := by
  intro l
  induction l with
  | nil => intro m sc _; rfl
  | cons a rest ih =>
    intro m sc h
    have hne : sc ≠ a := fun hh => h (by rw [hh]; exact List.mem_cons_self a rest)
    have hrest : sc ∉ rest := fun hh => h (List.mem_cons_of_mem a hh)
    simp only [List.foldl_cons]
    rw [ih (setStatus m a .pending) sc hrest, getStatus_setStatus, if_neg hne]

theorem getStatus_foldl_pending_mem :
    ∀ (l : List String) (m : StatusMap) (sc : String), sc ∈ l →
      getStatus (l.foldl (fun acc x => setStatus acc x .pending) m) sc =
        some .pending := by
  intro l
  induction l with
  | nil => intro m sc h; cases h
  | cons a rest ih =>
    intro m sc h
    by_cases hrest : sc ∈ rest
    · simp only [List.foldl_cons]
      exact ih (setStatus m a .pending) sc hrest
    · have hsc : sc = a := by
        rcases List.mem_cons.mp h with h' | h'
        · exact h'
        · exact absurd h' hrest
      subst hsc
      simp only [List.foldl_cons]
      rw [getStatus_foldl_pending_not_mem rest (setStatus m sc .pending) sc hrest,
        getStatus_setStatus, if_pos rfl]

/-- Every scene of the run is `pending` in the initial status record. -/
theorem initSched_pending (scenes : List String) (sc : String) (h : sc ∈ scenes) :
    getStatus (initSched scenes).status sc = some .pending :=
  getStatus_foldl_pending_mem scenes [] sc h

theorem inFlight_le_two (s : SchedState) : inFlight s ≤ 2 := by
  unfold inFlight
  split <;> split <;> omega

theorem schedInv_init (scenes : List String) (hnd : scenes.Nodup) :
    SchedInv scenes (initSched scenes) := by
  refine ⟨List.nodup_nil, hnd, ?_, ?_⟩
  · intro sc _ h
    cases h
  · intro sc hsc
    exact Or.inl hsc

theorem stepWorker_false_idle_nil (gen : String → Except String String)
    (lat : String → Nat) (w1 : WorkerState) (status : StatusMap)
    (started : List String) :
    stepWorker gen lat ⟨[], .idle, w1, status, started⟩ false =
      ⟨[], .idle, w1, status, started⟩ := rfl

theorem stepWorker_false_idle_cons (gen : String → Except String String)
    (lat : String → Nat) (sc : String) (rest : List String) (w1 : WorkerState)
    (status : StatusMap) (started : List String) :
    stepWorker gen lat ⟨sc :: rest, .idle, w1, status, started⟩ false =
      ⟨rest, .running sc (lat sc), w1, status, sc :: started⟩ := rfl

theorem stepWorker_false_finish (gen : String → Except String String)
    (lat : String → Nat) (queue : List String) (sc : String) (w1 : WorkerState)
    (status : StatusMap) (started : List String) :
    stepWorker gen lat ⟨queue, .running sc 0, w1, status, started⟩ false =
      ⟨queue, .idle, w1, publish gen status sc, started⟩ := rfl

theorem stepWorker_false_tick (gen : String → Except String String)
    (lat : String → Nat) (queue : List String) (sc : String) (n : Nat)
    (w1 : WorkerState) (status : StatusMap) (started : List String) :
    stepWorker gen lat ⟨queue, .running sc (n + 1), w1, status, started⟩ false =
      ⟨queue, .running sc n, w1, status, started⟩ := rfl

theorem stepWorker_true_idle_nil (gen : String → Except String String)
    (lat : String → Nat) (w0 : WorkerState) (status : StatusMap)
    (started : List String) :
    stepWorker gen lat ⟨[], w0, .idle, status, started⟩ true =
      ⟨[], w0, .idle, status, started⟩ := rfl

theorem stepWorker_true_idle_cons (gen : String → Except String String)
    (lat : String → Nat) (sc : String) (rest : List String) (w0 : WorkerState)
    (status : StatusMap) (started : List String) :
    stepWorker gen lat ⟨sc :: rest, w0, .idle, status, started⟩ true =
      ⟨rest, w0, .running sc (lat sc), status, sc :: started⟩ := rfl

theorem stepWorker_true_finish (gen : String → Except String String)
    (lat : String → Nat) (queue : List String) (sc : String) (w0 : WorkerState)
    (status : StatusMap) (started : List String) :
    stepWorker gen lat ⟨queue, w0, .running sc 0, status, started⟩ true =
      ⟨queue, w0, .idle, publish gen status sc, started⟩ := rfl

theorem stepWorker_true_tick (gen : String → Except String String)
    (lat : String → Nat) (queue : List String) (sc : String) (n : Nat)
    (w0 : WorkerState) (status : StatusMap) (started : List String) :
    stepWorker gen lat ⟨queue, w0, .running sc (n + 1), status, started⟩ true =
      ⟨queue, w0, .running sc n, status, started⟩ := rfl

theorem mem_runningScenes {x : String} {queue : List String} {w0 w1 : WorkerState}
    {status : StatusMap} {started : List String} :
    x ∈ runningScenes ⟨queue, w0, w1, status, started⟩ ↔
      x ∈ workerScenes w0 ∨ x ∈ workerScenes w1 := by
  simp [runningScenes, List.mem_append]

theorem schedInv_step (gen : String → Except String String) (lat : String → Nat)
    (scenes : List String) (s : SchedState) (i : Bool) (h : SchedInv scenes s) :
    SchedInv scenes (stepWorker gen lat s i) := by
  rcases s with ⟨queue, w0, w1, status, started⟩
  obtain ⟨hsn, hqn, hqf, hacc⟩ := h
  cases i with
  | false =>
    cases w0 with
    | idle =>
      cases queue with
      | nil => exact ⟨hsn, hqn, hqf, hacc⟩
      | cons sc rest =>
        rw [stepWorker_false_idle_cons]
        have hscfresh : sc ∉ started := hqf sc (List.mem_cons_self sc rest)
        have hscrest : sc ∉ rest := (List.nodup_cons.mp hqn).1
        refine ⟨List.nodup_cons.mpr ⟨hscfresh, hsn⟩, (List.nodup_cons.mp hqn).2, ?_, ?_⟩
        · intro x hx hmem
          rcases List.mem_cons.mp hmem with rfl | hmem2
          · exact hscrest hx
          · exact hqf x (List.mem_cons_of_mem sc hx) hmem2
        · intro x hx
          rcases hacc x hx with hq | hr | ht
          · rcases List.mem_cons.mp hq with rfl | hx2
            · right; left
              exact mem_runningScenes.mpr (Or.inl (by simp [workerScenes]))
            · left; exact hx2
          · right; left
            rcases mem_runningScenes.mp hr with h0 | h1
            · simp [workerScenes] at h0
            · exact mem_runningScenes.mpr (Or.inr h1)
          · right; right; exact ht
    | running sc n =>
      cases n with
      | zero =>
        rw [stepWorker_false_finish]
        refine ⟨hsn, hqn, hqf, ?_⟩
        intro x hx
        rcases hacc x hx with hq | hr | ht
        · left; exact hq
        · rcases mem_runningScenes.mp hr with h0 | h1
          · simp [workerScenes] at h0
            subst h0
            right; right
            exact ⟨resultStatus (gen x), getStatus_publish_self gen status x,
              resultStatus_isTerminal _⟩
          · right; left
            exact mem_runningScenes.mpr (Or.inr h1)
        · rcases ht with ⟨st, hst, hterm⟩
          by_cases hx2 : x = sc
          · subst hx2
            right; right
            exact ⟨resultStatus (gen x), getStatus_publish_self gen status x,
              resultStatus_isTerminal _⟩
          · right; right
            refine ⟨st, ?_, hterm⟩
            show getStatus (publish gen status sc) x = some st
            rw [publish, getStatus_setStatus, if_neg hx2]
            exact hst
      | succ n2 =>
        rw [stepWorker_false_tick]
        refine ⟨hsn, hqn, hqf, ?_⟩
        intro x hx
        rcases hacc x hx with hq | hr | ht
        · left; exact hq
        · right; left
          rcases mem_runningScenes.mp hr with h0 | h1
          · simp [workerScenes] at h0
            subst h0
            exact mem_runningScenes.mpr (Or.inl (by simp [workerScenes]))
          · exact mem_runningScenes.mpr (Or.inr h1)
        · right; right; exact ht
  | true =>
    cases w1 with
    | idle =>
      cases queue with
      | nil => exact ⟨hsn, hqn, hqf, hacc⟩
      | cons sc rest =>
        rw [stepWorker_true_idle_cons]
        have hscfresh : sc ∉ started := hqf sc (List.mem_cons_self sc rest)
        have hscrest : sc ∉ rest := (List.nodup_cons.mp hqn).1
        refine ⟨List.nodup_cons.mpr ⟨hscfresh, hsn⟩, (List.nodup_cons.mp hqn).2, ?_, ?_⟩
        · intro x hx hmem
          rcases List.mem_cons.mp hmem with rfl | hmem2
          · exact hscrest hx
          · exact hqf x (List.mem_cons_of_mem sc hx) hmem2
        · intro x hx
          rcases hacc x hx with hq | hr | ht
          · rcases List.mem_cons.mp hq with rfl | hx2
            · right; left
              exact mem_runningScenes.mpr (Or.inr (by simp [workerScenes]))
            · left; exact hx2
          · right; left
            rcases mem_runningScenes.mp hr with h0 | h1
            · exact mem_runningScenes.mpr (Or.inl h0)
            · simp [workerScenes] at h1
          · right; right; exact ht
    | running sc n =>
      cases n with
      | zero =>
        rw [stepWorker_true_finish]
        refine ⟨hsn, hqn, hqf, ?_⟩
        intro x hx
        rcases hacc x hx with hq | hr | ht
        · left; exact hq
        · rcases mem_runningScenes.mp hr with h0 | h1
          · right; left
            exact mem_runningScenes.mpr (Or.inl h0)
          · simp [workerScenes] at h1
            subst h1
            right; right
            exact ⟨resultStatus (gen x), getStatus_publish_self gen status x,
              resultStatus_isTerminal _⟩
        · rcases ht with ⟨st, hst, hterm⟩
          by_cases hx2 : x = sc
          · subst hx2
            right; right
            exact ⟨resultStatus (gen x), getStatus_publish_self gen status x,
              resultStatus_isTerminal _⟩
          · right; right
            refine ⟨st, ?_, hterm⟩
            show getStatus (publish gen status sc) x = some st
            rw [publish, getStatus_setStatus, if_neg hx2]
            exact hst
      | succ n2 =>
        rw [stepWorker_true_tick]
        refine ⟨hsn, hqn, hqf, ?_⟩
        intro x hx
        rcases hacc x hx with hq | hr | ht
        · left; exact hq
        · right; left
          rcases mem_runningScenes.mp hr with h0 | h1
          · exact mem_runningScenes.mpr (Or.inl h0)
          · simp [workerScenes] at h1
            subst h1
            exact mem_runningScenes.mpr (Or.inr (by simp [workerScenes]))
        · right; right; exact ht

theorem schedInv_run (gen : String → Except String String) (lat : String → Nat)
    (scenes : List String) :
    ∀ (sched : List Bool) (s : SchedState), SchedInv scenes s →
      SchedInv scenes (runSched gen lat s sched) := by
  intro sched
  induction sched with
  | nil => intro s h; exact h
  | cons i rest ih =>
    intro s h
    exact ih _ (schedInv_step gen lat scenes s i h)

theorem completed_all_terminal (scenes : List String) (s : SchedState)
    (hinv : SchedInv scenes s) (hc : completed s = true) :
    ∀ sc ∈ scenes, ∃ st, getStatus s.status sc = some st ∧ st.isTerminal = true := by
  intro sc hsc
  rcases s with ⟨queue, w0, w1, status, started⟩
  rcases hinv.account sc hsc with hq | hr | ht
  · exfalso
    cases queue with
    | nil => cases hq
    | cons a rest => simp [completed] at hc
  · exfalso
    cases w0 with
    | running sc0 n0 => simp [completed, WorkerState.isRunning] at hc
    | idle =>
      cases w1 with
      | running sc1 n1 => simp [completed, WorkerState.isRunning] at hc
      | idle => simp [runningScenes, workerScenes] at hr
  · exact ht

theorem step_preserves_terminal (gen : String → Except String String)
    (lat : String → Nat) (s : SchedState) (i : Bool) (sc : String) (st : GStatus)
    (h : getStatus s.status sc = some st) (ht : st.isTerminal = true) :
    ∃ st', getStatus (stepWorker gen lat s i).status sc = some st' ∧
      st'.isTerminal = true := by
  rcases s with ⟨queue, w0, w1, status, started⟩
  cases i with
  | false =>
    cases w0 with
    | idle =>
      cases queue with
      | nil => exact ⟨st, h, ht⟩
      | cons a rest => exact ⟨st, h, ht⟩
    | running sc0 n =>
      cases n with
      | zero =>
        by_cases hx : sc = sc0
        · subst hx
          exact ⟨resultStatus (gen sc), getStatus_publish_self gen status sc,
            resultStatus_isTerminal _⟩
        · refine ⟨st, ?_, ht⟩
          show getStatus (publish gen status sc0) sc = some st
          rw [publish, getStatus_setStatus, if_neg hx]
          exact h
      | succ n' => exact ⟨st, h, ht⟩
  | true =>
    cases w1 with
    | idle =>
      cases queue with
      | nil => exact ⟨st, h, ht⟩
      | cons a rest => exact ⟨st, h, ht⟩
    | running sc1 n =>
      cases n with
      | zero =>
        by_cases hx : sc = sc1
        · subst hx
          exact ⟨resultStatus (gen sc), getStatus_publish_self gen status sc,
            resultStatus_isTerminal _⟩
        · refine ⟨st, ?_, ht⟩
          show getStatus (publish gen status sc1) sc = some st
          rw [publish, getStatus_setStatus, if_neg hx]
          exact h
      | succ n' => exact ⟨st, h, ht⟩

theorem runSched_preserves_terminal (gen : String → Except String String)
    (lat : String → Nat) :
    ∀ (sched : List Bool) (s : SchedState) (sc : String) (st : GStatus),
      getStatus s.status sc = some st → st.isTerminal = true →
      ∃ st', getStatus (runSched gen lat s sched).status sc = some st' ∧
        st'.isTerminal = true := by
  intro sched
  induction sched with
  | nil => intro s sc st h ht; exact ⟨st, h, ht⟩
  | cons i rest ih =>
    intro s sc st h ht
    obtain ⟨st', h', ht'⟩ := step_preserves_terminal gen lat s i sc st h ht
    exact ih _ sc st' h' ht'

/-! ### The claims -/

/-- C1: if the primary request's external calls fail with a server-error
marker on attempts 1 and 2 and succeed with an image-bearing response on
attempt 3, then `callGeminiWithRetry` issues exactly 3 calls separated by
the backoff delays `initialDelay * 2 ^ (attempt - 1)` — 1000ms then
2000ms — and the scene's orchestration ends successfully with the
extracted image, without a fallback attempt. -/
theorem c1_retry_backoff_then_done (model : ExternalModel)
    (p c scene pm pd cm cd m1 m2 : String) (r : GenResponse) (d : InlineData)
    (hp : parseImageDataUrl p = some (pm, pd))
    (hc : parseImageDataUrl c = some (cm, cd))
    (h1 : model (primaryRequest pm pd cm cd scene) 1 = .error m1)
    (h2 : model (primaryRequest pm pd cm cd scene) 2 = .error m2)
    (h3 : model (primaryRequest pm pd cm cd scene) 3 = .ok r)
    (hi1 : isInternalError m1 = true) (hi2 : isInternalError m2 = true)
    (hr : findInlineData r.parts = some d) :
    generateSceneImage model p c scene =
      ⟨3, [1000, 2000], [], false, .ok (encodeDataUrl d.mimeType d.base64Data)⟩ := by
  have hcall := retry_two_internal_then_ok (model (primaryRequest pm pd cm cd scene))
    m1 m2 r h1 h2 h3 hi1 hi2
  simp only [generateSceneImage, hp, hc, orchestrate, runAttempt, hcall]
  simp [processGeminiResponse, hr]

/-- Witness for C1: a concrete model failing twice with `INTERNAL` then
returning an inline PNG part. -/
theorem c1_witness :
    generateSceneImage twoInternalModel personUrlDemo clothingUrlDemo
        "di pantai saat senja" =
      ⟨3, [1000, 2000], [], false, .ok (encodeDataUrl "image/png" "XYZA")⟩ :=
  c1_retry_backoff_then_done twoInternalModel personUrlDemo clothingUrlDemo
    "di pantai saat senja" "image/png" "AAAA" "image/jpeg" "BBBB"
    "rpc failed: INTERNAL" "rpc failed again: INTERNAL" imageResponseDemo
    ⟨"image/png", "XYZA"⟩ (by decide) (by decide) rfl rfl rfl
    (by decide) (by decide) rfl

/-- Counterexample to C2 as stated: an external-call failure (the model
never returns a response, so the primary sequence does not fail with the
`NoImageInResponse` signal) whose message happens to contain the marker
substring still triggers the fallback attempt, with a second call. -/
theorem c2_counterexample :
    (callGeminiWithRetry (alwaysSpuriousModel
        (primaryRequest "image/png" "AAAA" "image/jpeg" "BBBB" "pantai"))).result
      = .error spuriousMsg ∧
    isInternalError spuriousMsg = false ∧
    (generateSceneImage alwaysSpuriousModel personUrlDemo clothingUrlDemo
        "pantai").fallbackAttempted = true ∧
    (generateSceneImage alwaysSpuriousModel personUrlDemo clothingUrlDemo
        "pantai").calls = 2 := by
  decide

/-- C2 (amended): the orchestrator attempts the fallback prompt iff the
primary attempt-sequence's outcome is an error whose message contains the
`noImageMarker` substring (on any error without the marker it fails with
no fallback), and a scene issues at most 6 external calls. -/
theorem c2_amended (model : ExternalModel) (p c scene pm pd cm cd : String)
    (hp : parseImageDataUrl p = some (pm, pd))
    (hc : parseImageDataUrl c = some (cm, cd)) :
    (generateSceneImage model p c scene).calls ≤ 6 ∧
    ((generateSceneImage model p c scene).fallbackAttempted = true ↔
      ∃ m, (runAttempt (model (primaryRequest pm pd cm cd scene))).2 = .error m ∧
        includes m noImageMarker = true) ∧
    (∀ m, (runAttempt (model (primaryRequest pm pd cm cd scene))).2 = .error m →
      includes m noImageMarker = false →
      (generateSceneImage model p c scene).fallbackAttempted = false ∧
      (generateSceneImage model p c scene).result = .error (genericFailedMsg m)) := by
  refine ⟨generateSceneImage_calls_le model p c scene,
    fallbackAttempted_iff model p c scene pm pd cm cd hp hc, ?_⟩
  intro m hm hmark
  rcases hA : runAttempt (model (primaryRequest pm pd cm cd scene)) with ⟨t1, r1⟩
  rw [hA] at hm
  simp only at hm
  subst hm
  constructor
  · simp only [generateSceneImage, hp, hc, orchestrate, hA, hmark]
    simp
  · simp only [generateSceneImage, hp, hc, orchestrate, hA, hmark]
    simp

/-- Witness for C2 (amended), at a concrete non-retriable quota failure
without the content-block marker: no fallback, generic failure result. -/
theorem c2_witness :
    (generateSceneImage quotaModel personUrlDemo clothingUrlDemo
        "di taman kota").calls ≤ 6 ∧
    ((generateSceneImage quotaModel personUrlDemo clothingUrlDemo
        "di taman kota").fallbackAttempted = true ↔
      ∃ m, (runAttempt (quotaModel
          (primaryRequest "image/png" "AAAA" "image/jpeg" "BBBB" "di taman kota"))).2
            = .error m ∧
        includes m noImageMarker = true) ∧
    (∀ m, (runAttempt (quotaModel
        (primaryRequest "image/png" "AAAA" "image/jpeg" "BBBB" "di taman kota"))).2
          = .error m →
      includes m noImageMarker = false →
      (generateSceneImage quotaModel personUrlDemo clothingUrlDemo
        "di taman kota").fallbackAttempted = false ∧
      (generateSceneImage quotaModel personUrlDemo clothingUrlDemo
        "di taman kota").result = .error (genericFailedMsg m)) :=
  c2_amended quotaModel personUrlDemo clothingUrlDemo "di taman kota"
    "image/png" "AAAA" "image/jpeg" "BBBB" (by decide) (by decide)

/-- Counterexample to C3 as stated: `data:text/plain;base64,AA` has the
spec's claimed shape (`data:` scheme, a `/`-containing media type, the
base64 marker, a payload) but the decoder rejects it — the code only
accepts media types of the form `image/<word-characters>`. -/
theorem c3_counterexample :
    specDataUrlShape "data:text/plain;base64,AA" ∧
    parseImageDataUrl "data:text/plain;base64,AA" = none := by
  constructor
  · exact ⟨"text/plain", "AA", by decide, by decide⟩
  · decide

/-- C3 (amended): the decoder succeeds exactly on strings of the shape
`data:image/<nonempty word-character run>;base64,<payload free of line
terminators>`, and fails (`InvalidImageFormat`) on every other string. -/
theorem c3_decode_shape (s : String) :
    (parseImageDataUrl s).isSome = true ↔ imageDataUrlShape s :=
  parse_succeeds_iff_shape s

/-- C4: decoding the encoding of any pair the codec can produce returns
the same pair (round trip), where validity is the code's own input
domain: an `image/<word-characters>` media type and a payload free of
line terminators. -/
theorem c4_decode_encode (m p : String) (hm : validMimeType m = true)
    (hp : validPayload p = true) :
    parseImageDataUrl (encodeDataUrl m p) = some (m, p) :=
  decode_encode_chars m p hm hp

/-- Witness for C4 at the spec's end-to-end example image. -/
theorem c4_witness :
    parseImageDataUrl (encodeDataUrl "image/png" "AAAA") = some ("image/png", "AAAA") :=
  c4_decode_encode "image/png" "AAAA" (by decide) (by decide)

set_option maxRecDepth 100000 in
/-- Counterexample to C5 as stated: with distinct text-only responses for
the two prompts, the terminal message contains the fallback failure's
message but NOT the primary failure's message — only the last error is
included, so the two underlying messages are not both concatenated. -/
theorem c5_counterexample :
    (generateSceneImage twoTextsModel personUrlDemo clothingUrlDemo
        "pantai").fallbackAttempted = true ∧
    (generateSceneImage twoTextsModel personUrlDemo clothingUrlDemo
        "pantai").result =
      .error (fallbackFailedMsg (noImageMessage (some "wwyy"))) ∧
    includes (fallbackFailedMsg (noImageMessage (some "wwyy")))
      (noImageMessage (some "zzqq")) = false := by
  decide

/-- C5 (amended): when the primary attempt-sequence fails with the
content-block marker and the fallback attempt-sequence also fails, the
orchestration ends in an error whose message references both attempts
(`prompt asli dan cadangan`) and contains the fallback failure's message
(the primary failure's message is not included). -/
theorem c5_amended (model : ExternalModel) (p c scene pm pd cm cd m1 m2 : String)
    (hp : parseImageDataUrl p = some (pm, pd))
    (hc : parseImageDataUrl c = some (cm, cd))
    (hprim : (runAttempt (model (primaryRequest pm pd cm cd scene))).2 = .error m1)
    (hmark : includes m1 noImageMarker = true)
    (hfb : (runAttempt (model (fallbackRequest pm pd cm cd scene))).2 = .error m2) :
    (generateSceneImage model p c scene).fallbackAttempted = true ∧
    (generateSceneImage model p c scene).result = .error (fallbackFailedMsg m2) ∧
    includes (fallbackFailedMsg m2) m2 = true ∧
    includes (fallbackFailedMsg m2) "prompt asli dan cadangan" = true := by
  rcases hA : runAttempt (model (primaryRequest pm pd cm cd scene)) with ⟨t1, r1⟩
  rw [hA] at hprim
  simp only at hprim
  subst hprim
  rcases hB : runAttempt (model (fallbackRequest pm pd cm cd scene)) with ⟨t2, r2⟩
  rw [hB] at hfb
  simp only at hfb
  subst hfb
  refine ⟨?_, ?_, ?_, ?_⟩
  · simp only [generateSceneImage, hp, hc, orchestrate, hA, hmark, hB]
    simp
  · simp only [generateSceneImage, hp, hc, orchestrate, hA, hmark, hB]
    simp
  · show includes
      ("Model AI gagal dengan prompt asli dan cadangan. Kesalahan terakhir: " ++ m2)
      m2 = true
    exact includes_append_self _ m2
  · show includes
      ("Model AI gagal dengan prompt asli dan cadangan. Kesalahan terakhir: " ++ m2)
      "prompt asli dan cadangan" = true
    exact includes_append_of_includes m2 "prompt asli dan cadangan" (by decide)

set_option maxRecDepth 100000 in
/-- Witness for C5 (amended) at the two-text model. -/
theorem c5_witness :
    (generateSceneImage twoTextsModel personUrlDemo clothingUrlDemo
        "pantai").fallbackAttempted = true ∧
    (generateSceneImage twoTextsModel personUrlDemo clothingUrlDemo
        "pantai").result =
      .error (fallbackFailedMsg (noImageMessage (some "wwyy"))) ∧
    includes (fallbackFailedMsg (noImageMessage (some "wwyy")))
      (noImageMessage (some "wwyy")) = true ∧
    includes (fallbackFailedMsg (noImageMessage (some "wwyy")))
      "prompt asli dan cadangan" = true :=
  c5_amended twoTextsModel personUrlDemo clothingUrlDemo "pantai"
    "image/png" "AAAA" "image/jpeg" "BBBB"
    (noImageMessage (some "zzqq")) (noImageMessage (some "wwyy"))
    (by decide) (by decide) (by decide) (by decide) (by decide)

/-- Counterexample to C9 as stated: a single non-retriable failure (no
server-error marker) whose message contains the content-block marker
makes the orchestration attempt the fallback, issuing a second external
call — it does not end after exactly 1 call. -/
theorem c9_counterexample :
    isInternalError spuriousMsg = false ∧
    alwaysSpuriousModel
        (primaryRequest "image/png" "AAAA" "image/jpeg" "BBBB" "di kafe") 1
      = .error spuriousMsg ∧
    (generateSceneImage alwaysSpuriousModel personUrlDemo clothingUrlDemo
        "di kafe").calls = 2 ∧
    (generateSceneImage alwaysSpuriousModel personUrlDemo clothingUrlDemo
        "di kafe").fallbackAttempted = true := by
  decide

/-- C9 (amended): if the external model fails once with an error that is
not retriable (no server-error marker) and whose message also lacks the
content-block marker, the orchestration ends in an error after exactly 1
external call — no retry, no fallback. -/
theorem c9_amended (model : ExternalModel) (p c scene pm pd cm cd m : String)
    (hp : parseImageDataUrl p = some (pm, pd))
    (hc : parseImageDataUrl c = some (cm, cd))
    (h1 : model (primaryRequest pm pd cm cd scene) 1 = .error m)
    (hint : isInternalError m = false)
    (hnm : includes m noImageMarker = false) :
    generateSceneImage model p c scene =
      ⟨1, [], [], false, .error (genericFailedMsg m)⟩ := by
  have hcall := retry_nonretriable (model (primaryRequest pm pd cm cd scene)) m h1 hint
  simp only [generateSceneImage, hp, hc, orchestrate, runAttempt, hcall]
  simp [hnm]

/-- Witness for C9 (amended): a concrete quota failure. -/
theorem c9_witness :
    generateSceneImage quotaModel personUrlDemo clothingUrlDemo "di kafe" =
      ⟨1, [], [], false, .error (genericFailedMsg "Kuota habis.")⟩ :=
  c9_amended quotaModel personUrlDemo clothingUrlDemo "di kafe"
    "image/png" "AAAA" "image/jpeg" "BBBB" "Kuota habis."
    (by decide) (by decide) rfl (by decide) (by decide)

/-- C10: error classification is by substring matching on the message:
a failure is retriable exactly when its message contains `"code":500` or
`INTERNAL` (a second call is issued iff so), and the fallback path is
taken exactly when the primary outcome's error message contains the
content-block marker — whatever the error's actual cause. -/
theorem c10_substring_classification :
    (∀ msg : String, isInternalError msg = true ↔
        (includes msg "\"code\":500" = true ∨ includes msg "INTERNAL" = true)) ∧
    (∀ (gen : Nat → Except String GenResponse) (m : String), gen 1 = .error m →
        (2 ≤ (callGeminiWithRetry gen).calls ↔ isInternalError m = true)) ∧
    (∀ (model : ExternalModel) (p c scene pm pd cm cd msg : String),
        parseImageDataUrl p = some (pm, pd) →
        parseImageDataUrl c = some (cm, cd) →
        (runAttempt (model (primaryRequest pm pd cm cd scene))).2 = .error msg →
        ((generateSceneImage model p c scene).fallbackAttempted = true ↔
          includes msg noImageMarker = true)) := by
  refine ⟨?_, ?_, ?_⟩
  · intro msg
    simp [isInternalError, Bool.or_eq_true]
  · intro gen m h
    exact retry_retries_iff gen m h
  · intro model p c scene pm pd cm cd msg hp hc hprim
    rw [fallbackAttempted_iff model p c scene pm pd cm cd hp hc]
    constructor
    · rintro ⟨m2, hm2, hmark⟩
      rw [hprim] at hm2
      injection hm2 with h2
      rw [h2]
      exact hmark
    · intro hmark
      exact ⟨msg, hprim, hmark⟩

/-- Witness for C10 at a concrete spurious failure message. -/
theorem c10_witness :
    (isInternalError spuriousMsg = true ↔
      (includes spuriousMsg "\"code\":500" = true ∨
        includes spuriousMsg "INTERNAL" = true)) ∧
    ((generateSceneImage alwaysSpuriousModel personUrlDemo clothingUrlDemo
        "di hutan pinus").fallbackAttempted = true ↔
      includes spuriousMsg noImageMarker = true) :=
  ⟨c10_substring_classification.1 spuriousMsg,
   c10_substring_classification.2.2 alwaysSpuriousModel personUrlDemo
     clothingUrlDemo "di hutan pinus" "image/png" "AAAA" "image/jpeg" "BBBB"
     spuriousMsg (by decide) (by decide) (by decide)⟩

/-- C6: during a bulk run with the code's two workers, at most
`concurrencyLimit = 2` scenes ever have an in-flight call at once, no
scene is taken off the queue twice (so none is processed by two
workers), and whenever the run completes every scene of the list has a
terminal (`done` or `error`) status — per-scene errors are caught, so no
error aborts the scheduler or the sibling scenes. -/
theorem c6_bulk_run (model : ExternalModel) (personImage clothingImage : String)
    (lat : String → Nat) (scenes : List String) (hnd : scenes.Nodup)
    (sched : List Bool) :
    inFlight (runSched (sceneResult model personImage clothingImage) lat
        (initSched scenes) sched) ≤ concurrencyLimit ∧
    (runSched (sceneResult model personImage clothingImage) lat
        (initSched scenes) sched).started.Nodup ∧
    (completed (runSched (sceneResult model personImage clothingImage) lat
        (initSched scenes) sched) = true →
      ∀ sc ∈ scenes, ∃ st,
        getStatus (runSched (sceneResult model personImage clothingImage) lat
          (initSched scenes) sched).status sc = some st ∧
        st.isTerminal = true) := by
  have hinv := schedInv_run (sceneResult model personImage clothingImage) lat
    scenes sched (initSched scenes) (schedInv_init scenes hnd)
  exact ⟨inFlight_le_two _, hinv.startedNodup,
    fun hc => completed_all_terminal scenes _ hinv hc⟩

/-- Witness for C6: six concrete scenes, latency 1, a round-robin
schedule. -/
theorem c6_witness :
    inFlight (runSched (sceneResult okModelDemo personUrlDemo clothingUrlDemo)
        (fun _ => 1) (initSched scenesDemo) schedDemo) ≤ concurrencyLimit ∧
    (runSched (sceneResult okModelDemo personUrlDemo clothingUrlDemo)
        (fun _ => 1) (initSched scenesDemo) schedDemo).started.Nodup ∧
    (completed (runSched (sceneResult okModelDemo personUrlDemo clothingUrlDemo)
        (fun _ => 1) (initSched scenesDemo) schedDemo) = true →
      ∀ sc ∈ scenesDemo, ∃ st,
        getStatus (runSched (sceneResult okModelDemo personUrlDemo clothingUrlDemo)
          (fun _ => 1) (initSched scenesDemo) schedDemo).status sc = some st ∧
        st.isTerminal = true) :=
  c6_bulk_run okModelDemo personUrlDemo clothingUrlDemo (fun _ => 1)
    scenesDemo (by decide) schedDemo

/-- C7: starting a bulk run publishes `pending` for every scene of the
run while both workers are still idle and no scene has been taken (so
before any call completed); afterwards a scene whose status is terminal
keeps a terminal status across every scheduler step — a status never
regresses to `pending` during the run. -/
theorem c7_pending_then_monotone (model : ExternalModel)
    (personImage clothingImage : String) (lat : String → Nat)
    (scenes : List String) :
    ((initSched scenes).w0 = .idle ∧ (initSched scenes).w1 = .idle ∧
      (initSched scenes).started = []) ∧
    (∀ sc ∈ scenes, getStatus (initSched scenes).status sc = some .pending) ∧
    (∀ (sched : List Bool) (s : SchedState) (sc : String) (st : GStatus),
      getStatus s.status sc = some st → st.isTerminal = true →
      ∃ st', getStatus (runSched (sceneResult model personImage clothingImage)
          lat s sched).status sc = some st' ∧ st'.isTerminal = true) := by
  refine ⟨⟨rfl, rfl, rfl⟩, ?_, ?_⟩
  · intro sc h
    exact initSched_pending scenes sc h
  · intro sched s sc st h ht
    exact runSched_preserves_terminal _ lat sched s sc st h ht

/-- Witness for C7 at concrete scenes and a concrete terminal status. -/
theorem c7_witness :
    getStatus (initSched scenesDemo).status "di kafe" = some .pending ∧
    (∃ st', getStatus (runSched
        (sceneResult okModelDemo personUrlDemo clothingUrlDemo) (fun _ => 1)
        ⟨[], .idle, .idle, [("x", .done "u")], []⟩ [false, true]).status "x"
          = some st' ∧ st'.isTerminal = true) :=
  ⟨(c7_pending_then_monotone okModelDemo personUrlDemo clothingUrlDemo
      (fun _ => 1) scenesDemo).2.1 "di kafe" (by decide),
   (c7_pending_then_monotone okModelDemo personUrlDemo clothingUrlDemo
      (fun _ => 1) scenesDemo).2.2 [false, true]
      ⟨[], .idle, .idle, [("x", .done "u")], []⟩ "x" (.done "u")
      (by decide) (by decide)⟩

/-- C8: re-requesting a scene whose status is `pending` is a no-op (no
`generateSceneImage` invocation, status record unchanged); re-requesting
a scene whose status is terminal runs exactly one attempt-sequence and
overwrites that scene's status with the new terminal result. -/
theorem c8_regenerate (model : ExternalModel) (personImage clothingImage : String)
    (m : StatusMap) (scene : String) :
    (getStatus m scene = some .pending →
      regenerate (sceneResult model personImage clothingImage) m scene = (m, 0)) ∧
    (∀ st, getStatus m scene = some st → st.isTerminal = true →
      (regenerate (sceneResult model personImage clothingImage) m scene).2 = 1 ∧
      getStatus (regenerate (sceneResult model personImage clothingImage) m scene).1
          scene
        = some (resultStatus (sceneResult model personImage clothingImage scene)) ∧
      (resultStatus (sceneResult model personImage clothingImage scene)).isTerminal
        = true) := by
  constructor
  · intro h
    simp [regenerate, h]
  · intro st h ht
    cases st with
    | pending => simp [GStatus.isTerminal] at ht
    | done url =>
      refine ⟨?_, ?_, resultStatus_isTerminal _⟩
      · simp [regenerate, h]
      · simp only [regenerate, h]
        exact getStatus_publish_self _ _ _
    | error msg =>
      refine ⟨?_, ?_, resultStatus_isTerminal _⟩
      · simp [regenerate, h]
      · simp only [regenerate, h]
        exact getStatus_publish_self _ _ _

/-- Witness for C8: a pending scene is untouched, a finished scene is
re-run once. -/
theorem c8_witness :
    regenerate (sceneResult okModelDemo personUrlDemo clothingUrlDemo)
        statusMapDemo "di taman kota" = (statusMapDemo, 0) ∧
    (regenerate (sceneResult okModelDemo personUrlDemo clothingUrlDemo)
        statusMapDemo "di kafe").2 = 1 ∧
    getStatus (regenerate (sceneResult okModelDemo personUrlDemo clothingUrlDemo)
        statusMapDemo "di kafe").1 "di kafe"
      = some (resultStatus (sceneResult okModelDemo personUrlDemo clothingUrlDemo
          "di kafe")) :=
  ⟨(c8_regenerate okModelDemo personUrlDemo clothingUrlDemo statusMapDemo
      "di taman kota").1 (by decide),
   ((c8_regenerate okModelDemo personUrlDemo clothingUrlDemo statusMapDemo
      "di kafe").2 (.done "data:image/png;base64,XYZA") (by decide) (by decide)).1,
   ((c8_regenerate okModelDemo personUrlDemo clothingUrlDemo statusMapDemo
      "di kafe").2 (.done "data:image/png;base64,XYZA") (by decide) (by decide)).2.1⟩

end Tukangniru

